import Mathlib

/-!
Verification of the meal catalog persistence layer
(`meal_max/models/kitchen_model.py`).

The store is modelled as a list of table rows; every public operation of the
module is embedded as a pure function over that state.  All Python failures in
this module are `ValueError`s distinguished only by their message, so the error
type below has one constructor per distinct message template, carrying the data
interpolated into the message.
-/

namespace KitchenModel

/-- One constructor per distinct `ValueError` message template raised in
`kitchen_model.py`.  Two Python errors are observably equal iff they are the
same constructor with the same arguments (same class `ValueError`, same
message). -/
inductive KErr where
  /-- "Invalid price: {price}. Price must be a positive number." -/
  | invalidPrice (price : ℚ)
  /-- "Invalid difficulty level: {difficulty}. Must be 'LOW', 'MED', or 'HIGH'." -/
  | invalidDifficulty (difficulty : String)
  /-- "Meal with name '{meal}' already exists" -/
  | duplicateName (meal : String)
  /-- "Meal with ID {meal_id} has been deleted" -/
  | mealDeletedById (id : Nat)
  /-- "Meal with ID {meal_id} not found" -/
  | mealNotFoundById (id : Nat)
  /-- "Meal with name {meal_name} has been deleted" -/
  | mealDeletedByName (name : String)
  /-- "Meal with name {meal_name} not found" -/
  | mealNotFoundByName (name : String)
  /-- "Invalid sort_by parameter: {sort_by}" -/
  | invalidSortBy (sortBy : String)
  /-- "Invalid result: {result}. Expected 'win' or 'loss'." -/
  | invalidResult (result : String)
  deriving DecidableEq

/-- One row of the `meals` table (schema: id, meal, cuisine, price, difficulty,
battles, wins, deleted). -/
structure MealRow where
  id : Nat
  meal : String
  cuisine : String
  price : ℚ
  difficulty : String
  battles : Nat
  wins : Nat
  deleted : Bool
  deriving DecidableEq

/-- The persistent state: the full contents of the `meals` table, in insertion
order (rows are never physically removed by the modelled operations). -/
abbrev Store := List MealRow

/-- The `Meal` dataclass returned by the point lookups: only
`id, meal, cuisine, price, difficulty`. -/
structure Meal where
  id : Nat
  meal : String
  cuisine : String
  price : ℚ
  difficulty : String
  deriving DecidableEq

/-- SQLite assigns a fresh `id` as one more than the largest id present
(rowid allocation for an integer primary key). -/
def nextId (s : Store) : Nat := (s.map MealRow.id).foldr max 0 + 1

/-- `difficulty in ['LOW', 'MED', 'HIGH']`. -/
def validDifficulty (d : String) : Bool := d == "LOW" || d == "MED" || d == "HIGH"

/-- `create_meal`: validates price, then difficulty, then inserts; the UNIQUE
constraint on `meal` makes the insert fail (`sqlite3.IntegrityError`, re-raised
as the duplicate-name `ValueError`) when any row already has that name.
The new row gets `battles=0, wins=0, deleted=false`. -/
def create_meal (meal cuisine : String) (price : ℚ) (difficulty : String)
    (s : Store) : Except KErr Store :=
  if price ≤ 0 then .error (.invalidPrice price)
  else if ¬ validDifficulty difficulty then .error (.invalidDifficulty difficulty)
  else if s.any (fun r => r.meal == meal) then .error (.duplicateName meal)
  else .ok (s ++ [⟨nextId s, meal, cuisine, price, difficulty, 0, 0, false⟩])

/-- The Python return value of `create_meal`: the function is annotated
`-> None` and has no `return` statement, so the caller receives `None`,
never the assigned identifier. -/
def create_meal_return : Option Nat := none

/-- Effect of `UPDATE meals SET deleted = TRUE WHERE id = ?` on one row. -/
def setDeleted (meal_id : Nat) (q : MealRow) : MealRow :=
  if q.id == meal_id then { q with deleted := true } else q

/-- Effect of `UPDATE meals SET battles = battles + 1, wins = wins + 1 WHERE id = ?`
on one row. -/
def addWin (meal_id : Nat) (q : MealRow) : MealRow :=
  if q.id == meal_id then { q with battles := q.battles + 1, wins := q.wins + 1 }
  else q

/-- Effect of `UPDATE meals SET battles = battles + 1 WHERE id = ?` on one row. -/
def addLoss (meal_id : Nat) (q : MealRow) : MealRow :=
  if q.id == meal_id then { q with battles := q.battles + 1 } else q

/-- `delete_meal`: looks the row up by id; absent → not-found error, already
deleted → deleted error, otherwise sets `deleted = TRUE` on that row. -/
def delete_meal (meal_id : Nat) (s : Store) : Except KErr Store :=
  match s.find? (fun r => r.id == meal_id) with
  | none => .error (.mealNotFoundById meal_id)
  | some r =>
    if r.deleted then .error (.mealDeletedById meal_id)
    else .ok (s.map (setDeleted meal_id))

/-- `get_meal_by_id`: row absent → "not found" error; row present but
`deleted` → "has been deleted" error; otherwise returns the five-field
`Meal`. -/
def get_meal_by_id (meal_id : Nat) (s : Store) : Except KErr Meal :=
  match s.find? (fun r => r.id == meal_id) with
  | none => .error (.mealNotFoundById meal_id)
  | some r =>
    if r.deleted then .error (.mealDeletedById meal_id)
    else .ok ⟨r.id, r.meal, r.cuisine, r.price, r.difficulty⟩

/-- `get_meal_by_name`: same as `get_meal_by_id`, keyed by exact name. -/
def get_meal_by_name (meal_name : String) (s : Store) : Except KErr Meal :=
  match s.find? (fun r => r.meal == meal_name) with
  | none => .error (.mealNotFoundByName meal_name)
  | some r =>
    if r.deleted then .error (.mealDeletedByName meal_name)
    else .ok ⟨r.id, r.meal, r.cuisine, r.price, r.difficulty⟩

/-- `update_meal_stats`: checks existence and deletion first (raising the
corresponding errors), then dispatches on `result`: "win" increments
`battles` and `wins`, "loss" increments only `battles`, anything else raises
the invalid-result error. -/
def update_meal_stats (meal_id : Nat) (result : String) (s : Store) :
    Except KErr Store :=
  match s.find? (fun r => r.id == meal_id) with
  | none => .error (.mealNotFoundById meal_id)
  | some r =>
    if r.deleted then .error (.mealDeletedById meal_id)
    else if result == "win" then .ok (s.map (addWin meal_id))
    else if result == "loss" then .ok (s.map (addLoss meal_id))
    else .error (.invalidResult result)

/-- Python `round(x, 1)`: round to one decimal place. -/
def round1 (q : ℚ) : ℚ := (round (q * 10) : ℚ) / 10

/-- `wins * 1.0 / battles`, the `win_pct` column computed by the leaderboard
query. -/
def winPct (r : MealRow) : ℚ := (r.wins : ℚ) / (r.battles : ℚ)

/-- One leaderboard dictionary: the row's columns plus
`win_pct = round(row[7] * 100, 1)`. -/
structure LBEntry where
  id : Nat
  meal : String
  cuisine : String
  price : ℚ
  difficulty : String
  battles : Nat
  wins : Nat
  win_pct : ℚ
  deriving DecidableEq

/-- Builds the leaderboard dictionary for one row. -/
def lbEntry (r : MealRow) : LBEntry :=
  ⟨r.id, r.meal, r.cuisine, r.price, r.difficulty, r.battles, r.wins,
    round1 (winPct r * 100)⟩

/-- The ORDER BY key of the leaderboard query: `win_pct` (unrounded) or
`wins`. -/
def lbKey (sort_by : String) (r : MealRow) : ℚ :=
  if sort_by = "win_pct" then winPct r else (r.wins : ℚ)

/-- Descending order on the ORDER BY key. -/
def lbRel (sort_by : String) (a b : MealRow) : Prop :=
  lbKey sort_by b ≤ lbKey sort_by a

instance (sort_by : String) : DecidableRel (lbRel sort_by) :=
  fun a b => inferInstanceAs (Decidable (lbKey sort_by b ≤ lbKey sort_by a))

instance (sort_by : String) : IsTotal MealRow (lbRel sort_by) :=
  ⟨fun a b => le_total (lbKey sort_by b) (lbKey sort_by a)⟩

instance (sort_by : String) : IsTrans MealRow (lbRel sort_by) :=
  ⟨fun _ _ _ hab hbc => le_trans hbc hab⟩

/-- The rows selected by the leaderboard query:
`WHERE deleted = false AND battles > 0`. -/
def lbRows (s : Store) : List MealRow :=
  s.filter (fun r => !r.deleted && decide (0 < r.battles))

/-- `get_leaderboard`: rejects an unrecognized `sort_by` before touching the
database; otherwise selects the rows with `deleted = false AND battles > 0`,
orders them descending by the chosen key, and renders each row as a
dictionary with the rounded percentage. -/
def get_leaderboard (sort_by : String) (s : Store) : Except KErr (List LBEntry) :=
  if sort_by = "win_pct" ∨ sort_by = "wins" then
    .ok ((List.insertionSort (lbRel sort_by) (lbRows s)).map lbEntry)
  else .error (.invalidSortBy sort_by)

/-- The sort field of a produced leaderboard entry, as the caller sees it:
the rounded `win_pct` or the win count. -/
def lbEntryKey (sort_by : String) (e : LBEntry) : ℚ :=
  if sort_by = "win_pct" then e.win_pct else (e.wins : ℚ)

/-- The public operations of the store, for reachability statements. -/
inductive Op where
  | create (meal cuisine : String) (price : ℚ) (difficulty : String)
  | softDelete (id : Nat)
  | getById (id : Nat)
  | getByName (name : String)
  | leaderboard (sortBy : String)
  | updateStats (id : Nat) (result : String)

/-- Effect of one operation on the table: a failing or read-only operation
leaves it unchanged (every raise in the source happens before `conn.commit()`,
so the scoped connection rolls the transaction back). -/
def step (s : Store) : Op → Store
  | .create m c p d =>
    match create_meal m c p d s with
    | .ok s2 => s2
    | .error _ => s
  | .softDelete i =>
    match delete_meal i s with
    | .ok s2 => s2
    | .error _ => s
  | .getById _ => s
  | .getByName _ => s
  | .leaderboard _ => s
  | .updateStats i r =>
    match update_meal_stats i r s with
    | .ok s2 => s2
    | .error _ => s

/-- States reachable from the empty table by the public operations. -/
inductive Reachable : Store → Prop where
  | empty : Reachable []
  | next {s : Store} (op : Op) : Reachable s → Reachable (step s op)

/-- The stats invariant: every row has `wins ≤ battles` (both are `Nat`,
hence non-negative). -/
def StatsInv (s : Store) : Prop := ∀ r ∈ s, r.wins ≤ r.battles

/-- Runs a sequence of `update_meal_stats` calls on one id, stopping at the
first failure. -/
def runStats (meal_id : Nat) (results : List String) (s : Store) :
    Except KErr Store :=
  results.foldlM (fun st res => update_meal_stats meal_id res st) s

/-- Modelled from the spec: the spec's error taxonomy classifies both failure
modes of the point lookups — row absent and row soft-deleted — as
`NotFoundError` ("surfaced identically to callers as not-found"). -/
def specLookupNotFound : KErr → Bool
  | .mealNotFoundById _ => true
  | .mealDeletedById _ => true
  | .mealNotFoundByName _ => true
  | .mealDeletedByName _ => true
  | _ => false

deriving instance DecidableEq for Except

/-! Helper lemmas. -/

theorem le_foldr_max {l : List Nat} {a : Nat} (h : a ∈ l) :
    a ≤ l.foldr max 0 := by
  induction l with
  | nil => cases h
  | cons b l ih =>
    rcases List.mem_cons.mp h with rfl | h2
    · exact le_max_left _ _
    · exact le_trans (ih h2) (le_max_right _ _)

theorem id_lt_nextId {s : Store} {r : MealRow} (h : r ∈ s) : r.id < nextId s :=
  Nat.lt_succ_of_le (le_foldr_max (List.mem_map_of_mem MealRow.id h))

theorem find?_nextId_none (s : Store) :
    s.find? (fun r => r.id == nextId s) = none := by
  rw [List.find?_eq_none]
  intro r hr hbeq
  exact absurd (by simpa using hbeq) (Nat.ne_of_lt (id_lt_nextId hr))

theorem create_meal_ok {m c dif : String} {p : ℚ} {s s2 : Store}
    (h : create_meal m c p dif s = .ok s2) :
    0 < p ∧ validDifficulty dif = true ∧ (∀ r ∈ s, r.meal ≠ m) ∧
      s2 = s ++ [⟨nextId s, m, c, p, dif, 0, 0, false⟩] := by
  unfold create_meal at h
  split_ifs at h with h1 h2 h3
  all_goals try cases h
  refine ⟨not_le.mp h1, h2, ?_, rfl⟩
  intro r hr hrm
  exact h3 (List.any_eq_true.mpr ⟨r, hr, by simp [hrm]⟩)

theorem create_meal_find? {m c dif : String} {p : ℚ} {s s2 : Store}
    (h : create_meal m c p dif s = .ok s2) :
    s2.find? (fun r => r.id == nextId s) =
      some ⟨nextId s, m, c, p, dif, 0, 0, false⟩ := by
  obtain ⟨-, -, -, rfl⟩ := create_meal_ok h
  rw [List.find?_append, find?_nextId_none s]
  simp [List.find?_cons]

/-- `find?` on id commutes with mapping an id-preserving row update over the
table. -/
theorem find?_id_map {g : MealRow → MealRow} (hg : ∀ q, (g q).id = q.id)
    (i : Nat) (s : Store) :
    (s.map g).find? (fun r => r.id == i) =
      (s.find? (fun r => r.id == i)).map g := by
  induction s with
  | nil => rfl
  | cons a l ih =>
    simp only [List.map_cons, List.find?_cons, hg a]
    cases a.id == i
    · simpa using ih
    · rfl

theorem setDeleted_id (i : Nat) (q : MealRow) : (setDeleted i q).id = q.id := by
  unfold setDeleted; split <;> rfl

theorem addWin_id (i : Nat) (q : MealRow) : (addWin i q).id = q.id := by
  unfold addWin; split <;> rfl

theorem addLoss_id (i : Nat) (q : MealRow) : (addLoss i q).id = q.id := by
  unfold addLoss; split <;> rfl

/-! Claim theorems. -/

/-- C1 (counterexample): at the concrete input `("Pasta", "Italian", 12, "MED")`
on the empty store, `create_meal` inserts a record whose assigned identifier
is 1, but the function's Python return value is `None`, not that identifier:
the claim that create returns the assigned identifier is false. -/
theorem C1_counterexample :
    create_meal "Pasta" "Italian" 12 "MED" [] =
      .ok [⟨1, "Pasta", "Italian", 12, "MED", 0, 0, false⟩] ∧
    create_meal_return ≠ some 1 := by
  constructor
  · rfl
  · simp [create_meal_return]

/-- C1 (amended): `create_meal` returns `None`, not the identifier; but the
store assigns `nextId s` to the new record, and `get_meal_by_id` at that
identifier returns a `Meal` with exactly the fields
`id, meal, cuisine, price, difficulty`, equal to the created values. -/
theorem C1_create_then_get {m c dif : String} {p : ℚ} {s s2 : Store}
    (h : create_meal m c p dif s = .ok s2) :
    get_meal_by_id (nextId s) s2 = .ok ⟨nextId s, m, c, p, dif⟩ := by
  unfold get_meal_by_id
  rw [create_meal_find? h]
  simp

/-- C1 (witness): the amended theorem at a concrete input. -/
theorem C1_witness :
    create_meal "Pasta" "Italian" 12 "MED" [] =
      .ok [⟨1, "Pasta", "Italian", 12, "MED", 0, 0, false⟩] ∧
    get_meal_by_id (nextId ([] : Store))
        [⟨1, "Pasta", "Italian", 12, "MED", 0, 0, false⟩] =
      .ok ⟨nextId ([] : Store), "Pasta", "Italian", 12, "MED"⟩ :=
  ⟨by rfl, C1_create_then_get (by rfl)⟩

/-- C2: for a row present (looked up by id) and not soft-deleted,
`update_meal_stats` with "win" increments both `battles` and `wins` of every
row with that id by exactly 1, and with "loss" increments only `battles`;
positionally, every row whose id differs is returned unchanged, and the
record-update syntax in the conclusion shows all other fields
(`id, meal, cuisine, price, difficulty, deleted`) are preserved. -/
theorem C2_updateStats (s : Store) (i : Nat) (r : MealRow)
    (hf : s.find? (fun q => q.id == i) = some r) (hd : r.deleted = false) :
    ∃ sw sl : Store,
      update_meal_stats i "win" s = .ok sw ∧
      update_meal_stats i "loss" s = .ok sl ∧
      sw.length = s.length ∧ sl.length = s.length ∧
      ∀ (k : Nat) (q : MealRow), s[k]? = some q →
        (q.id = i →
          sw[k]? = some { q with battles := q.battles + 1, wins := q.wins + 1 } ∧
          sl[k]? = some { q with battles := q.battles + 1 }) ∧
        (q.id ≠ i → sw[k]? = some q ∧ sl[k]? = some q) := by
  refine ⟨s.map (addWin i), s.map (addLoss i), ?_, ?_, by simp, by simp, ?_⟩
  · unfold update_meal_stats
    rw [hf]
    simp [hd]
  · unfold update_meal_stats
    rw [hf]
    simp [hd]
  · intro k q hk
    constructor
    · intro hqi
      rw [List.getElem?_map, List.getElem?_map, hk]
      simp [addWin, addLoss, hqi]
    · intro hqi
      rw [List.getElem?_map, List.getElem?_map, hk]
      simp [addWin, addLoss, hqi]

/-- C2 (witness): the theorem at a concrete one-row store. -/
theorem C2_witness :
    ([⟨1, "A", "a", 5, "MED", 2, 1, false⟩] : Store).find?
        (fun q => q.id == 1) = some ⟨1, "A", "a", 5, "MED", 2, 1, false⟩ ∧
    (⟨1, "A", "a", 5, "MED", 2, 1, false⟩ : MealRow).deleted = false ∧
    (∃ sw sl : Store,
      update_meal_stats 1 "win" [⟨1, "A", "a", 5, "MED", 2, 1, false⟩] = .ok sw ∧
      update_meal_stats 1 "loss" [⟨1, "A", "a", 5, "MED", 2, 1, false⟩] = .ok sl ∧
      sw.length = ([⟨1, "A", "a", 5, "MED", 2, 1, false⟩] : Store).length ∧
      sl.length = ([⟨1, "A", "a", 5, "MED", 2, 1, false⟩] : Store).length ∧
      ∀ (k : Nat) (q : MealRow),
        ([⟨1, "A", "a", 5, "MED", 2, 1, false⟩] : Store)[k]? = some q →
        (q.id = 1 →
          sw[k]? = some { q with battles := q.battles + 1, wins := q.wins + 1 } ∧
          sl[k]? = some { q with battles := q.battles + 1 }) ∧
        (q.id ≠ 1 → sw[k]? = some q ∧ sl[k]? = some q)) :=
  ⟨by rfl, rfl, C2_updateStats _ 1 _ (by rfl) rfl⟩

theorem round1_mono {q r : ℚ} (h : q ≤ r) : round1 q ≤ round1 r := by
  unfold round1
  have h2 : round (q * 10) ≤ round (r * 10) := by
    rw [round_eq, round_eq]
    exact Int.floor_mono (by linarith)
  have h3 : ((round (q * 10) : ℤ) : ℚ) ≤ ((round (r * 10) : ℤ) : ℚ) :=
    Int.cast_le.mpr h2
  linarith

/-- Sorting rows descending by the ORDER BY key also sorts the produced
entries descending by their displayed sort field (the rounded percentage is a
monotone image of the unrounded one). -/
theorem lbRel_entryKey {sort_by : String}
    (h : sort_by = "win_pct" ∨ sort_by = "wins") {a b : MealRow}
    (hab : lbRel sort_by a b) :
    lbEntryKey sort_by (lbEntry b) ≤ lbEntryKey sort_by (lbEntry a) := by
  rcases h with rfl | rfl
  · simp only [lbRel, lbKey, if_pos rfl] at hab
    simp only [lbEntryKey, lbEntry, if_pos rfl]
    exact round1_mono (mul_le_mul_of_nonneg_right hab (by norm_num))
  · have hne : ("wins" : String) ≠ "win_pct" := by decide
    simp only [lbRel, lbKey, if_neg hne] at hab
    simpa only [lbEntryKey, lbEntry, if_neg hne] using hab

/-- C3: with `sort_by` equal to "wins" or "win_pct", the leaderboard succeeds
and returns exactly the entries of the rows that are not soft-deleted and have
`battles > 0` (a permutation of them; membership in both directions), ordered
descending by the chosen field; any row with `battles = 0` never appears
(every returned entry has `battles > 0`).  With any other `sort_by` it fails
with the invalid-sort_by `ValidationError` and returns no records. -/
theorem C3_leaderboard (s : Store) (sort_by : String) :
    (sort_by = "wins" ∨ sort_by = "win_pct" →
      ∃ es : List LBEntry,
        get_leaderboard sort_by s = .ok es ∧
        es.Perm ((lbRows s).map lbEntry) ∧
        (∀ e ∈ es, ∃ r ∈ s, r.deleted = false ∧ 0 < r.battles ∧ e = lbEntry r) ∧
        (∀ r ∈ s, r.deleted = false → 0 < r.battles → lbEntry r ∈ es) ∧
        es.Sorted (fun a b => lbEntryKey sort_by b ≤ lbEntryKey sort_by a) ∧
        (∀ e ∈ es, 0 < e.battles)) ∧
    (sort_by ≠ "wins" → sort_by ≠ "win_pct" →
      get_leaderboard sort_by s = .error (.invalidSortBy sort_by)) := by
  constructor
  · intro hsb
    have hsb2 : sort_by = "win_pct" ∨ sort_by = "wins" := hsb.symm
    refine ⟨(List.insertionSort (lbRel sort_by) (lbRows s)).map lbEntry,
      ?_, ?_, ?_, ?_, ?_, ?_⟩
    · unfold get_leaderboard
      rw [if_pos hsb2]
    · exact (List.perm_insertionSort _ _).map _
    · intro e he
      rcases List.mem_map.mp he with ⟨r, hr, rfl⟩
      have hmem : r ∈ lbRows s :=
        (List.perm_insertionSort (lbRel sort_by) (lbRows s)).mem_iff.mp hr
      rcases List.mem_filter.mp hmem with ⟨hrs, hcond⟩
      simp only [Bool.and_eq_true, Bool.not_eq_true', decide_eq_true_eq] at hcond
      exact ⟨r, hrs, hcond.1, hcond.2, rfl⟩
    · intro r hr hdel hb
      apply List.mem_map_of_mem
      apply (List.perm_insertionSort (lbRel sort_by) (lbRows s)).mem_iff.mpr
      exact List.mem_filter.mpr ⟨hr, by simp [hdel, hb]⟩
    · exact List.Pairwise.map lbEntry (fun a b hab => lbRel_entryKey hsb2 hab)
        (List.sorted_insertionSort (lbRel sort_by) (lbRows s))
    · intro e he
      rcases List.mem_map.mp he with ⟨r, hr, rfl⟩
      have hmem : r ∈ lbRows s :=
        (List.perm_insertionSort (lbRel sort_by) (lbRows s)).mem_iff.mp hr
      rcases List.mem_filter.mp hmem with ⟨-, hcond⟩
      simp only [Bool.and_eq_true, Bool.not_eq_true', decide_eq_true_eq] at hcond
      exact hcond.2
  · intro h1 h2
    unfold get_leaderboard
    rw [if_neg]
    rintro (h | h)
    · exact h2 h
    · exact h1 h

/-- C3 (witness): the valid branch of the theorem at a concrete one-row
store with `sort_by = "wins"`. -/
theorem C3_witness :
    ∃ es : List LBEntry,
      get_leaderboard "wins" [⟨1, "A", "a", 5, "MED", 4, 3, false⟩] = .ok es ∧
      es.Perm ((lbRows [⟨1, "A", "a", 5, "MED", 4, 3, false⟩]).map lbEntry) ∧
      (∀ e ∈ es, ∃ r ∈ ([⟨1, "A", "a", 5, "MED", 4, 3, false⟩] : Store),
        r.deleted = false ∧ 0 < r.battles ∧ e = lbEntry r) ∧
      (∀ r ∈ ([⟨1, "A", "a", 5, "MED", 4, 3, false⟩] : Store),
        r.deleted = false → 0 < r.battles → lbEntry r ∈ es) ∧
      es.Sorted (fun a b => lbEntryKey "wins" b ≤ lbEntryKey "wins" a) ∧
      (∀ e ∈ es, 0 < e.battles) :=
  (C3_leaderboard [⟨1, "A", "a", 5, "MED", 4, 3, false⟩] "wins").1 (Or.inl rfl)

/-- C4: `delete_meal` fails with the not-found error when no row has the id,
fails with the already-deleted error ("has been deleted") when the row's
`deleted` flag is already set, and otherwise marks every row with that id
deleted; after the successful delete, `get_meal_by_id` fails with an error the
spec classifies as `NotFoundError` (here the "has been deleted" message), and
a second `delete_meal` fails with the already-deleted error. -/
theorem C4_softDelete (i : Nat) (s : Store) :
    (s.find? (fun q => q.id == i) = none →
      delete_meal i s = .error (.mealNotFoundById i)) ∧
    (∀ r : MealRow, s.find? (fun q => q.id == i) = some r → r.deleted = true →
      delete_meal i s = .error (.mealDeletedById i)) ∧
    (∀ r : MealRow, s.find? (fun q => q.id == i) = some r → r.deleted = false →
      ∃ s2 : Store, delete_meal i s = .ok s2 ∧
        (∀ q ∈ s2, q.id = i → q.deleted = true) ∧
        get_meal_by_id i s2 = .error (.mealDeletedById i) ∧
        specLookupNotFound (.mealDeletedById i) = true ∧
        delete_meal i s2 = .error (.mealDeletedById i)) := by
  refine ⟨?_, ?_, ?_⟩
  · intro hn
    unfold delete_meal
    rw [hn]
  · intro r hf hd
    unfold delete_meal
    rw [hf]
    simp [hd]
  · intro r hf hd
    have hbeq : (r.id == i) = true := by
      have h0 := List.find?_some hf
      simpa using h0
    have hfind2 : (s.map (setDeleted i)).find? (fun q => q.id == i) =
        some { r with deleted := true } := by
      rw [find?_id_map (setDeleted_id i) i s, hf]
      simp [setDeleted, hbeq]
    refine ⟨s.map (setDeleted i), ?_, ?_, ?_, rfl, ?_⟩
    · unfold delete_meal
      rw [hf]
      simp [hd]
    · intro q hq hqi
      rcases List.mem_map.mp hq with ⟨q0, -, rfl⟩
      unfold setDeleted
      split
      · rfl
      · rename_i hfalse
        rw [setDeleted, if_neg hfalse] at hqi
        exact absurd (by simpa using hqi) (by simpa using hfalse)
    · unfold get_meal_by_id
      rw [hfind2]
      simp
    · unfold delete_meal
      rw [hfind2]
      simp

/-- C4 (witness): all three branches at concrete inputs. -/
theorem C4_witness :
    (([] : Store).find? (fun q => q.id == 7) = none ∧
      delete_meal 7 [] = .error (.mealNotFoundById 7)) ∧
    (([⟨2, "B", "b", 6, "LOW", 0, 0, true⟩] : Store).find?
        (fun q => q.id == 2) = some ⟨2, "B", "b", 6, "LOW", 0, 0, true⟩ ∧
      delete_meal 2 [⟨2, "B", "b", 6, "LOW", 0, 0, true⟩] =
        .error (.mealDeletedById 2)) ∧
    (∃ s2 : Store,
      delete_meal 1 [⟨1, "A", "a", 5, "MED", 0, 0, false⟩] = .ok s2 ∧
      (∀ q ∈ s2, q.id = 1 → q.deleted = true) ∧
      get_meal_by_id 1 s2 = .error (.mealDeletedById 1) ∧
      specLookupNotFound (.mealDeletedById 1) = true ∧
      delete_meal 1 s2 = .error (.mealDeletedById 1)) :=
  ⟨⟨by rfl, (C4_softDelete 7 []).1 (by rfl)⟩,
   ⟨by rfl, (C4_softDelete 2 _).2.1 _ (by rfl) rfl⟩,
   (C4_softDelete 1 _).2.2 _ (by rfl) rfl⟩

/-- C5 (counterexample): a store whose row 1 is soft-deleted and a store with
no row 1 do NOT produce the same observable error from `get_meal_by_id`: the
first raises "Meal with ID 1 has been deleted", the second "Meal with ID 1 not
found" — distinct errors, so a caller can tell the two states apart. -/
theorem C5_counterexample :
    get_meal_by_id 1 [⟨1, "Pasta", "Italian", 12, "MED", 0, 0, true⟩] =
      .error (.mealDeletedById 1) ∧
    get_meal_by_id 1 ([] : Store) = .error (.mealNotFoundById 1) ∧
    KErr.mealDeletedById 1 ≠ KErr.mealNotFoundById 1 := by
  refine ⟨by rfl, by rfl, ?_⟩
  intro h
  cases h

/-- C5 (amended): for any pair of states, one where the queried id (name)
belongs to a soft-deleted row and one where no row matches, `get_meal_by_id`
(`get_meal_by_name`) fails in both with errors that the spec's taxonomy
classifies identically as `NotFoundError`, but the two errors themselves
differ (different messages), so the caller can distinguish a soft-deleted
record from one that never existed by inspecting the message. -/
theorem C5_lookupErrors (s1 s2 : Store) (i : Nat) (nm : String)
    (r q : MealRow) :
    (s1.find? (fun a => a.id == i) = some r → r.deleted = true →
      s2.find? (fun a => a.id == i) = none →
      ∃ e1 e2 : KErr, get_meal_by_id i s1 = .error e1 ∧
        get_meal_by_id i s2 = .error e2 ∧
        specLookupNotFound e1 = true ∧ specLookupNotFound e2 = true ∧
        e1 ≠ e2) ∧
    (s1.find? (fun a => a.meal == nm) = some q → q.deleted = true →
      s2.find? (fun a => a.meal == nm) = none →
      ∃ e1 e2 : KErr, get_meal_by_name nm s1 = .error e1 ∧
        get_meal_by_name nm s2 = .error e2 ∧
        specLookupNotFound e1 = true ∧ specLookupNotFound e2 = true ∧
        e1 ≠ e2) := by
  constructor
  · intro hf hd hn
    refine ⟨.mealDeletedById i, .mealNotFoundById i, ?_, ?_, rfl, rfl, ?_⟩
    · unfold get_meal_by_id
      rw [hf]
      simp [hd]
    · unfold get_meal_by_id
      rw [hn]
    · intro h
      cases h
  · intro hf hd hn
    refine ⟨.mealDeletedByName nm, .mealNotFoundByName nm, ?_, ?_, rfl, rfl, ?_⟩
    · unfold get_meal_by_name
      rw [hf]
      simp [hd]
    · unfold get_meal_by_name
      rw [hn]
    · intro h
      cases h

/-- C5 (witness): the theorem at concrete stores, both by id and by name. -/
theorem C5_witness :
    (∃ e1 e2 : KErr,
      get_meal_by_id 1 [⟨1, "Pasta", "Italian", 12, "MED", 0, 0, true⟩] =
        .error e1 ∧
      get_meal_by_id 1 ([] : Store) = .error e2 ∧
      specLookupNotFound e1 = true ∧ specLookupNotFound e2 = true ∧
      e1 ≠ e2) ∧
    (∃ e1 e2 : KErr,
      get_meal_by_name "Pasta" [⟨1, "Pasta", "Italian", 12, "MED", 0, 0, true⟩] =
        .error e1 ∧
      get_meal_by_name "Pasta" ([] : Store) = .error e2 ∧
      specLookupNotFound e1 = true ∧ specLookupNotFound e2 = true ∧
      e1 ≠ e2) :=
  ⟨(C5_lookupErrors [⟨1, "Pasta", "Italian", 12, "MED", 0, 0, true⟩] [] 1
      "Pasta" ⟨1, "Pasta", "Italian", 12, "MED", 0, 0, true⟩
      ⟨1, "Pasta", "Italian", 12, "MED", 0, 0, true⟩).1 (by rfl) rfl (by rfl),
   (C5_lookupErrors [⟨1, "Pasta", "Italian", 12, "MED", 0, 0, true⟩] [] 1
      "Pasta" ⟨1, "Pasta", "Italian", 12, "MED", 0, 0, true⟩
      ⟨1, "Pasta", "Italian", 12, "MED", 0, 0, true⟩).2 (by rfl) rfl (by rfl)⟩

/-- C6: `create_meal` fails with the invalid-price `ValidationError` whenever
`price ≤ 0`, for every difficulty value; with positive price it fails with the
invalid-difficulty `ValidationError` whenever the difficulty is not LOW, MED
or HIGH; with valid price and difficulty but a name some stored row already
has, it fails with the duplicate-name error, which is a distinct error kind
from either validation error. -/
theorem C6_createErrors (m c dif : String) (p : ℚ) (s : Store) :
    (p ≤ 0 → create_meal m c p dif s = .error (.invalidPrice p)) ∧
    (0 < p → validDifficulty dif = false →
      create_meal m c p dif s = .error (.invalidDifficulty dif)) ∧
    (0 < p → validDifficulty dif = true → (∃ r ∈ s, r.meal = m) →
      create_meal m c p dif s = .error (.duplicateName m)) ∧
    (∀ p2 : ℚ, KErr.duplicateName m ≠ .invalidPrice p2) ∧
    (∀ d2 : String, KErr.duplicateName m ≠ .invalidDifficulty d2) := by
  refine ⟨?_, ?_, ?_, ?_, ?_⟩
  · intro hp
    unfold create_meal
    rw [if_pos hp]
  · intro hp hdif
    unfold create_meal
    rw [if_neg (not_le.mpr hp), if_pos (by simp [hdif])]
  · intro hp hdif hdup
    rcases hdup with ⟨r, hr, hrm⟩
    unfold create_meal
    rw [if_neg (not_le.mpr hp), if_neg (by simp [hdif]),
      if_pos (List.any_eq_true.mpr ⟨r, hr, by simp [hrm]⟩)]
  · intro p2 h
    cases h
  · intro d2 h
    cases h

/-- C6 (witness): all three failure branches at concrete inputs. -/
theorem C6_witness :
    create_meal "A" "a" (-2) "HIGH" [] = .error (.invalidPrice (-2)) ∧
    create_meal "A" "a" 20 "MEDIUM" [] = .error (.invalidDifficulty "MEDIUM") ∧
    create_meal "A" "a" 20 "HIGH" [⟨1, "A", "a", 5, "MED", 0, 0, false⟩] =
      .error (.duplicateName "A") ∧
    KErr.duplicateName "A" ≠ .invalidPrice 20 ∧
    KErr.duplicateName "A" ≠ .invalidDifficulty "MEDIUM" :=
  ⟨(C6_createErrors "A" "a" "HIGH" (-2) []).1 (by norm_num),
   (C6_createErrors "A" "a" "MEDIUM" 20 []).2.1 (by norm_num) (by decide),
   (C6_createErrors "A" "a" "HIGH" 20 _).2.2.1 (by norm_num) (by decide)
     ⟨⟨1, "A", "a", 5, "MED", 0, 0, false⟩, by simp, rfl⟩,
   (C6_createErrors "A" "a" "HIGH" 20 []).2.2.2.1 20,
   (C6_createErrors "A" "a" "HIGH" 20 []).2.2.2.2 "MEDIUM"⟩

/-- C7 (counterexample): with an absent id and the outcome "draw" (outside
{win, loss}), `update_meal_stats` fails with the not-found error, not with the
invalid-result `ValidationError`: the existence check runs first. -/
theorem C7_counterexample :
    update_meal_stats 1 "draw" ([] : Store) = .error (.mealNotFoundById 1) ∧
    KErr.mealNotFoundById 1 ≠ KErr.invalidResult "draw" := by
  refine ⟨by rfl, ?_⟩
  intro h
  cases h

/-- C7 (amended): `update_meal_stats` with an outcome outside {win, loss}
fails with the invalid-result `ValidationError` when the id belongs to a
present, non-deleted row; when no row has the id it fails with the not-found
error, and when the row is soft-deleted it fails with the deleted error —
in both of those cases whatever the outcome value. -/
theorem C7_updateStatsErrors (i : Nat) (res : String) (s : Store) :
    (res ≠ "win" → res ≠ "loss" →
      ∀ r : MealRow, s.find? (fun a => a.id == i) = some r →
        r.deleted = false →
        update_meal_stats i res s = .error (.invalidResult res)) ∧
    (s.find? (fun a => a.id == i) = none →
      update_meal_stats i res s = .error (.mealNotFoundById i)) ∧
    (∀ r : MealRow, s.find? (fun a => a.id == i) = some r →
      r.deleted = true →
      update_meal_stats i res s = .error (.mealDeletedById i)) := by
  refine ⟨?_, ?_, ?_⟩
  · intro hw hl r hf hd
    unfold update_meal_stats
    rw [hf]
    simp [hd, hw, hl]
  · intro hn
    unfold update_meal_stats
    rw [hn]
  · intro r hf hd
    unfold update_meal_stats
    rw [hf]
    simp [hd]

/-- C7 (witness): all three branches at concrete inputs. -/
theorem C7_witness :
    update_meal_stats 1 "draw" [⟨1, "A", "a", 5, "MED", 2, 1, false⟩] =
      .error (.invalidResult "draw") ∧
    update_meal_stats 9 "draw" ([] : Store) = .error (.mealNotFoundById 9) ∧
    update_meal_stats 1 "draw" [⟨1, "A", "a", 5, "MED", 2, 1, true⟩] =
      .error (.mealDeletedById 1) :=
  ⟨(C7_updateStatsErrors 1 "draw" _).1 (by decide) (by decide) _ (by rfl) rfl,
   (C7_updateStatsErrors 9 "draw" []).2.1 (by rfl),
   (C7_updateStatsErrors 1 "draw" _).2.2 _ (by rfl) rfl⟩

theorem except_ok_bind {α β : Type} {e : Type} (a : α) (f : α → Except e β) :
    (Except.ok a >>= f) = f a := rfl

theorem length_eq_counts {L : List String}
    (h : ∀ x ∈ L, x = "win" ∨ x = "loss") :
    L.length = L.count "win" + L.count "loss" := by
  induction L with
  | nil => rfl
  | cons x L ih =>
    have ih2 := ih (fun y hy => h y (List.mem_cons_of_mem x hy))
    rcases h x (List.mem_cons_self x L) with rfl | rfl <;>
      simp [List.count_cons, ih2] <;> omega

theorem update_win_ok {s : Store} {i : Nat} {r : MealRow}
    (hf : s.find? (fun q => q.id == i) = some r) (hd : r.deleted = false) :
    update_meal_stats i "win" s = .ok (s.map (addWin i)) := by
  unfold update_meal_stats
  rw [hf]
  simp [hd]

theorem update_loss_ok {s : Store} {i : Nat} {r : MealRow}
    (hf : s.find? (fun q => q.id == i) = some r) (hd : r.deleted = false) :
    update_meal_stats i "loss" s = .ok (s.map (addLoss i)) := by
  unfold update_meal_stats
  rw [hf]
  simp [hd]

/-- Running a sequence of win/loss updates on a present, non-deleted row
succeeds and adds the length of the sequence to `battles` and its number of
"win"s to `wins`. -/
theorem runStats_ok (i : Nat) :
    ∀ (L : List String) (s : Store) (r : MealRow),
      (∀ x ∈ L, x = "win" ∨ x = "loss") →
      s.find? (fun q => q.id == i) = some r → r.deleted = false →
      ∃ s2 : Store, runStats i L s = .ok s2 ∧
        s2.find? (fun q => q.id == i) =
          some { r with battles := r.battles + L.length,
                        wins := r.wins + L.count "win" } := by
  intro L
  induction L with
  | nil =>
    intro s r _ hf _
    refine ⟨s, rfl, ?_⟩
    rw [hf]
    cases r
    simp
  | cons x L ih =>
    intro s r hmem hf hd
    have hbeq : (r.id == i) = true := by
      have h0 := List.find?_some hf
      simpa using h0
    have hmem2 : ∀ y ∈ L, y = "win" ∨ y = "loss" :=
      fun y hy => hmem y (List.mem_cons_of_mem x hy)
    rcases hmem x (List.mem_cons_self x L) with rfl | rfl
    · have hf2 : (s.map (addWin i)).find? (fun q => q.id == i) =
          some { r with battles := r.battles + 1, wins := r.wins + 1 } := by
        rw [find?_id_map (addWin_id i) i s, hf]
        simp [addWin, hbeq]
      obtain ⟨s2, hrun, hfind⟩ := ih (s.map (addWin i)) _ hmem2 hf2 hd
      refine ⟨s2, ?_, ?_⟩
      · unfold runStats at hrun ⊢
        rw [List.foldlM_cons, update_win_ok hf hd, except_ok_bind]
        exact hrun
      · rw [hfind]
        cases r
        simp only [List.count_cons_self, List.length_cons, MealRow.mk.injEq,
          Option.some.injEq, and_true, true_and]
        omega
    · have hf2 : (s.map (addLoss i)).find? (fun q => q.id == i) =
          some { r with battles := r.battles + 1 } := by
        rw [find?_id_map (addLoss_id i) i s, hf]
        simp [addLoss, hbeq]
      obtain ⟨s2, hrun, hfind⟩ := ih (s.map (addLoss i)) _ hmem2 hf2 hd
      refine ⟨s2, ?_, ?_⟩
      · unfold runStats at hrun ⊢
        rw [List.foldlM_cons, update_loss_ok hf hd, except_ok_bind]
        exact hrun
      · rw [hfind]
        cases r
        have hcount : ("loss" :: L).count "win" = L.count "win" :=
          List.count_cons_of_ne (by decide) L
        simp only [hcount, List.length_cons, MealRow.mk.injEq,
          Option.some.injEq, and_true, true_and]
        omega

/-- A valid-key leaderboard succeeds and contains the entry of every stored
row that is not deleted and has fought at least one battle. -/
theorem leaderboard_ok_mem {sort_by : String}
    (hsb : sort_by = "win_pct" ∨ sort_by = "wins") (s : Store) :
    ∃ es : List LBEntry, get_leaderboard sort_by s = .ok es ∧
      ∀ r ∈ s, r.deleted = false → 0 < r.battles → lbEntry r ∈ es := by
  refine ⟨(List.insertionSort (lbRel sort_by) (lbRows s)).map lbEntry, ?_, ?_⟩
  · unfold get_leaderboard
    rw [if_pos hsb]
  · intro r hr hdel hb
    apply List.mem_map_of_mem
    apply (List.perm_insertionSort (lbRel sort_by) (lbRows s)).mem_iff.mpr
    exact List.mem_filter.mpr ⟨hr, by simp [hdel, hb]⟩

/-- C8: create a record, then give it exactly `n` wins and `m` losses through
`update_meal_stats` (in any order), with `n + m > 0`: the "win_pct"
leaderboard then reports for that record `battles = n + m`, `wins = n`, and
`win_pct = round(100 * n / (n + m), 1)`. -/
theorem C8_winPct {s : Store} {m c dif : String} {p : ℚ} {s2 : Store}
    {L : List String}
    (hcreate : create_meal m c p dif s = .ok s2)
    (hL : ∀ x ∈ L, x = "win" ∨ x = "loss") (hne : L ≠ []) :
    ∃ (s3 : Store) (es : List LBEntry),
      runStats (nextId s) L s2 = .ok s3 ∧
      get_leaderboard "win_pct" s3 = .ok es ∧
      ∃ e ∈ es, e.id = nextId s ∧
        e.battles = L.count "win" + L.count "loss" ∧
        e.wins = L.count "win" ∧
        e.win_pct = round1 (100 * (L.count "win" : ℚ) /
          ((L.count "win" : ℚ) + (L.count "loss" : ℚ))) := by
  obtain ⟨s3, hrun, hfind⟩ :=
    runStats_ok (nextId s) L s2 ⟨nextId s, m, c, p, dif, 0, 0, false⟩ hL
      (create_meal_find? hcreate) rfl
  have hlen : L.length = L.count "win" + L.count "loss" := length_eq_counts hL
  have hbpos : 0 < L.length := List.length_pos.mpr hne
  have hnew : s3.find? (fun q => q.id == nextId s) =
      some ⟨nextId s, m, c, p, dif, 0 + L.length, 0 + L.count "win", false⟩ := by
    rw [hfind]
  have hmem3 : (⟨nextId s, m, c, p, dif, 0 + L.length, 0 + L.count "win",
      false⟩ : MealRow) ∈ s3 :=
    List.mem_of_find?_eq_some hnew
  obtain ⟨es, hlb, hmemlb⟩ := leaderboard_ok_mem (Or.inl rfl) s3
  refine ⟨s3, es, hrun, hlb, ?_⟩
  refine ⟨lbEntry ⟨nextId s, m, c, p, dif, 0 + L.length, 0 + L.count "win",
    false⟩, hmemlb _ hmem3 rfl (by simpa using hbpos), rfl, ?_, ?_, ?_⟩
  · simpa [lbEntry] using hlen
  · simp [lbEntry]
  · show round1 (winPct _ * 100) = _
    congr 1
    unfold winPct
    simp only
    rw [Nat.zero_add, Nat.zero_add, hlen]
    push_cast
    ring

/-- C8 (witness): the theorem at a concrete input — create "Pasta", then
three wins and one loss; the leaderboard reports 4 battles, 3 wins, and
`win_pct = round(100 * 3 / 4, 1)`. -/
theorem C8_witness :
    create_meal "Pasta" "Italian" 12 "MED" [] =
      .ok [⟨1, "Pasta", "Italian", 12, "MED", 0, 0, false⟩] ∧
    (∃ (s3 : Store) (es : List LBEntry),
      runStats (nextId ([] : Store)) ["win", "win", "win", "loss"]
        [⟨1, "Pasta", "Italian", 12, "MED", 0, 0, false⟩] = .ok s3 ∧
      get_leaderboard "win_pct" s3 = .ok es ∧
      ∃ e ∈ es, e.id = nextId ([] : Store) ∧
        e.battles = (["win", "win", "win", "loss"].count "win") +
          (["win", "win", "win", "loss"].count "loss") ∧
        e.wins = ["win", "win", "win", "loss"].count "win" ∧
        e.win_pct = round1 (100 * ((["win", "win", "win", "loss"].count "win" : ℕ) : ℚ) /
          (((["win", "win", "win", "loss"].count "win" : ℕ) : ℚ) +
            ((["win", "win", "win", "loss"].count "loss" : ℕ) : ℚ)))) :=
  ⟨by rfl,
   @C8_winPct [] "Pasta" "Italian" "MED" 12
     [⟨1, "Pasta", "Italian", 12, "MED", 0, 0, false⟩]
     ["win", "win", "win", "loss"] (by rfl) (by decide) (by decide)⟩

theorem delete_meal_ok {i : Nat} {s s2 : Store}
    (h : delete_meal i s = .ok s2) : s2 = s.map (setDeleted i) := by
  unfold delete_meal at h
  split at h
  · cases h
  · split_ifs at h with hd
    cases h
    rfl

theorem update_meal_stats_ok {i : Nat} {res : String} {s s2 : Store}
    (h : update_meal_stats i res s = .ok s2) :
    s2 = s.map (addWin i) ∨ s2 = s.map (addLoss i) := by
  unfold update_meal_stats at h
  split at h
  · cases h
  · split_ifs at h with h1 h2 h3
    · cases h
      exact Or.inl rfl
    · cases h
      exact Or.inr rfl

/-- C9: every operation preserves the invariant `wins ≤ battles` (with both
counters naturals, hence non-negative), and consequently every store reachable
from the empty store by any sequence of the public operations satisfies it for
every record. -/
theorem C9_statsInvariant :
    (∀ (s : Store) (op : Op), StatsInv s → StatsInv (step s op)) ∧
    (∀ s : Store, Reachable s → StatsInv s) := by
  have hpres : ∀ (s : Store) (op : Op), StatsInv s → StatsInv (step s op) := by
    intro s op hinv
    cases op with
    | create m c p dif =>
      simp only [step]
      cases hc : create_meal m c p dif s with
      | error e => exact hinv
      | ok s2 =>
        obtain ⟨-, -, -, rfl⟩ := create_meal_ok hc
        intro r hr
        rcases List.mem_append.mp hr with h | h
        · exact hinv r h
        · rw [List.mem_singleton.mp h]
    | softDelete i =>
      simp only [step]
      cases hc : delete_meal i s with
      | error e => exact hinv
      | ok s2 =>
        rw [delete_meal_ok hc]
        intro r hr
        rcases List.mem_map.mp hr with ⟨q, hq, rfl⟩
        have hq2 := hinv q hq
        unfold setDeleted
        split
        · exact hq2
        · exact hq2
    | getById i => exact hinv
    | getByName n => exact hinv
    | leaderboard sb => exact hinv
    | updateStats i res =>
      simp only [step]
      cases hc : update_meal_stats i res s with
      | error e => exact hinv
      | ok s2 =>
        rcases update_meal_stats_ok hc with rfl | rfl
        · intro r hr
          rcases List.mem_map.mp hr with ⟨q, hq, rfl⟩
          have hq2 := hinv q hq
          unfold addWin
          split
          · exact Nat.succ_le_succ hq2
          · exact hq2
        · intro r hr
          rcases List.mem_map.mp hr with ⟨q, hq, rfl⟩
          have hq2 := hinv q hq
          unfold addLoss
          split
          · exact Nat.le_succ_of_le hq2
          · exact hq2
  refine ⟨hpres, ?_⟩
  intro s hreach
  induction hreach with
  | empty => intro r hr; cases hr
  | next op hr ih => exact hpres _ op ih

/-- C9 (witness): preservation applied at a concrete store and operation, and
the reachability part at the empty store. -/
theorem C9_witness :
    StatsInv (step [⟨1, "A", "a", 5, "MED", 2, 1, false⟩] (Op.updateStats 1 "win")) ∧
    StatsInv [] :=
  ⟨C9_statsInvariant.1 [⟨1, "A", "a", 5, "MED", 2, 1, false⟩]
      (Op.updateStats 1 "win")
      (fun r hr => by rw [List.mem_singleton.mp hr]; decide),
   C9_statsInvariant.2 [] Reachable.empty⟩

/-- C10: whenever `create_meal`, `delete_meal` or `update_meal_stats` fails
with any of the modelled errors, the stored collection after the call is
exactly the collection before it: every raise in the source happens before the
`INSERT`/`UPDATE` is committed, so the rolled-back transaction inserts no
record, sets no flag and increments no counter. -/
theorem C10_failureUnchanged (s : Store) (m c dif res : String) (p : ℚ)
    (i : Nat) :
    (∀ e : KErr, create_meal m c p dif s = .error e →
      step s (Op.create m c p dif) = s) ∧
    (∀ e : KErr, delete_meal i s = .error e → step s (Op.softDelete i) = s) ∧
    (∀ e : KErr, update_meal_stats i res s = .error e →
      step s (Op.updateStats i res) = s) := by
  refine ⟨?_, ?_, ?_⟩
  · intro e he
    simp only [step, he]
  · intro e he
    simp only [step, he]
  · intro e he
    simp only [step, he]

/-- C10 (witness): all three failing operations at concrete inputs. -/
theorem C10_witness :
    create_meal "A" "a" 0 "MED" [] = .error (.invalidPrice 0) ∧
    step [] (Op.create "A" "a" 0 "MED") = ([] : Store) ∧
    delete_meal 1 [] = .error (.mealNotFoundById 1) ∧
    step [] (Op.softDelete 1) = ([] : Store) ∧
    update_meal_stats 1 "win" [] = .error (.mealNotFoundById 1) ∧
    step [] (Op.updateStats 1 "win") = ([] : Store) :=
  ⟨by rfl, (C10_failureUnchanged [] "A" "a" "MED" "win" 0 1).1 _ (by rfl),
   by rfl, (C10_failureUnchanged [] "A" "a" "MED" "win" 0 1).2.1 _ (by rfl),
   by rfl, (C10_failureUnchanged [] "A" "a" "MED" "win" 0 1).2.2 _ (by rfl)⟩

end KitchenModel
